import Mathlib

/-!
Verification development for the incident-map media server.

The repository holds four JavaScript variants of one small Express server
that ingests geotagged media uploads, stores metadata records in a
whole-file JSON collection, serves blobs (with HTTP range support in one
variant) and answers filtered map-point queries.

This file gives a shallow embedding of the routes the frozen claims are
about, one namespace per source file:

* `Dedup`  — `src/unnamed/part_001` (first document): the content-hash
  deduplicating `POST /upload` with `note`/`category` fields.
* `Media`  — `src/unnamed/part_002`: `GET /map-points` with an hours
  window and bbox filter, returning the stored records verbatim.
* `Pins`   — `src/unnamed/part_000`: the strict `GET /map-points` that
  validates the bbox, filters on `captured_at`, sorts descending, caps
  the result at 5000 rows and projects each record to four fields.
* `Strict` — `src/server.js`: the range-serving `GET /video/:id` and the
  `captured_at` parsing expression of its `POST /upload`.

JavaScript numbers are modelled by `JSNum`: either `nan` or an exact
rational `JQ` (a numerator/denominator pair with gcd-normalising
arithmetic, kept executable so that concrete witnesses reduce in the
kernel).  The JS builtins the routes call (`parseInt`, `parseFloat`,
`Number`, `Date.parse`, `String.prototype.split`, `path.extname`) are
embedded as executable functions on character lists; `Date.parse` is
modelled on date-only ISO strings (`YYYY-MM-DD`, years ≥ 1970) with every
other input mapped to `nan`, matching the builtin's NaN-on-unparseable
behaviour on the inputs used here.  The SHA-256 content digest of an
upload is an external library stream hash; it is abstracted as a function
parameter `hashFn` — the claims only use that it is a function of the
blob's bytes.
-/

namespace IncidentMap

/-- Exact rational value of a (non-NaN) JavaScript number: numerator and
positive denominator, with gcd-normalising operations so that concrete
arithmetic reduces in the kernel. -/
structure JQ where
  n : Int
  d : Nat
deriving DecidableEq, Inhabited

/-- Reduce a fraction by the gcd of numerator and denominator. -/
def JQ.norm (a : JQ) : JQ :=
  let g := Nat.gcd a.n.natAbs a.d
  if g = 0 then ⟨0, 1⟩ else ⟨a.n / (g : Int), a.d / g⟩

/-- Embed an integer. -/
def JQ.ofInt (n : Int) : JQ := ⟨n, 1⟩

def JQ.add (a b : JQ) : JQ := JQ.norm ⟨a.n * b.d + b.n * a.d, a.d * b.d⟩

def JQ.sub (a b : JQ) : JQ := JQ.norm ⟨a.n * b.d - b.n * a.d, a.d * b.d⟩

def JQ.mul (a b : JQ) : JQ := JQ.norm ⟨a.n * b.n, a.d * b.d⟩

/-- `a ≤ b` by cross multiplication (denominators are positive for every
value the embedding constructs). -/
def JQ.leB (a b : JQ) : Bool := a.n * (b.d : Int) ≤ b.n * (a.d : Int)

/-- Truncate to a natural number (used for stream offsets). -/
def JQ.toNat (q : JQ) : Nat := (q.n / (q.d : Int)).toNat

/-- A JavaScript number: `NaN` or an exact rational. -/
inductive JSNum where
  | nan : JSNum
  | num : JQ → JSNum
deriving DecidableEq, Inhabited

def JSNum.ofInt (n : Int) : JSNum := .num (JQ.ofInt n)

/-- JS `>=`: false whenever either side is NaN. -/
def JSNum.ge (a b : JSNum) : Bool :=
  match a, b with
  | .num x, .num y => JQ.leB y x
  | _, _ => false

/-- JS `<=`: false whenever either side is NaN. -/
def JSNum.le (a b : JSNum) : Bool :=
  match a, b with
  | .num x, .num y => JQ.leB x y
  | _, _ => false

/-- JS subtraction; NaN propagates. -/
def JSNum.sub (a b : JSNum) : JSNum :=
  match a, b with
  | .num x, .num y => .num (JQ.sub x y)
  | _, _ => .nan

/-- JS multiplication; NaN propagates. -/
def JSNum.mul (a b : JSNum) : JSNum :=
  match a, b with
  | .num x, .num y => .num (JQ.mul x y)
  | _, _ => .nan

/-- JS truthiness of a number: `0` and `NaN` are falsy. -/
def JSNum.truthy : JSNum → Bool
  | .nan => false
  | .num q => q.n != 0

/-- `Number.isFinite` (the embedding has no infinities, so only NaN is
non-finite). -/
def JSNum.finite : JSNum → Bool
  | .nan => false
  | .num _ => true

/-- JS `a || b` on numbers: `b` when `a` is falsy. -/
def jsOr (a b : JSNum) : JSNum := if a.truthy then a else b

/-- JS `v || dflt` on an optional string field: the default replaces an
absent field and the empty string. -/
def strOr (v : Option String) (dflt : String) : String :=
  match v with
  | some s => if s = "" then dflt else s
  | none => dflt

/-- JS `v ?? dflt` on an optional string field: the default replaces only
an absent field; the empty string is kept. -/
def nullish (v : Option String) (dflt : String) : String := v.getD dflt

/-- Insert into a list sorted by the comparator `le`. -/
def insertBy {α : Type} (le : α → α → Bool) (a : α) : List α → List α
  | [] => [a]
  | b :: t => if le a b then a :: b :: t else b :: insertBy le a t

/-- Comparator sort (JS `Array.prototype.sort(cmp)`); structurally
recursive so concrete calls reduce in the kernel. -/
def sortBy {α : Type} (le : α → α → Bool) : List α → List α
  | [] => []
  | a :: t => insertBy le a (sortBy le t)

/-- `String.prototype.split(sep)` for a one-character separator, on
character lists (always returns at least one piece). -/
def splitOnChar (sep : Char) : List Char → List (List Char)
  | [] => [[]]
  | c :: rest =>
    let r := splitOnChar sep rest
    if c = sep then [] :: r
    else
      match r with
      | [] => [[c]]
      | g :: gs => (c :: g) :: gs

/-- Value of a list of decimal digit characters. -/
def decValue (ds : List Char) : Nat :=
  ds.foldl (fun a c => a * 10 + (c.toNat - 48)) 0

/-- JS `parseInt(s, 10)`: skip leading spaces, optional sign, then the
longest prefix of decimal digits; NaN when there is none. -/
def parseIntChars (cs : List Char) : JSNum :=
  let cs := cs.dropWhile (fun c => c = ' ')
  match cs with
  | '-' :: rest =>
    let ds := rest.takeWhile Char.isDigit
    if ds.isEmpty then .nan else .ofInt (-(decValue ds : Int))
  | '+' :: rest =>
    let ds := rest.takeWhile Char.isDigit
    if ds.isEmpty then .nan else .ofInt (decValue ds)
  | _ =>
    let ds := cs.takeWhile Char.isDigit
    if ds.isEmpty then .nan else .ofInt (decValue ds)

def jsParseInt (s : String) : JSNum := parseIntChars s.toList

/-- Leading decimal literal `digits [. digits]` or `. digits` after an
optional sign: the number and a flag whether any digit was read. -/
def parseFloatChars (cs : List Char) : JSNum :=
  let cs := cs.dropWhile (fun c => c = ' ')
  let sgn : Int := match cs with | '-' :: _ => -1 | _ => 1
  let cs := match cs with | '-' :: r => r | '+' :: r => r | _ => cs
  let ip := cs.takeWhile Char.isDigit
  let rest := cs.dropWhile Char.isDigit
  match rest with
  | '.' :: r2 =>
    let fp := r2.takeWhile Char.isDigit
    if ip.isEmpty && fp.isEmpty then .nan
    else .num (JQ.norm ⟨sgn * ((decValue ip : Int) * (10 ^ fp.length : Nat) + decValue fp), 10 ^ fp.length⟩)
  | _ => if ip.isEmpty then .nan else .ofInt (sgn * decValue ip)

/-- JS `parseFloat(s)`. -/
def jsParseFloat (s : String) : JSNum := parseFloatChars s.toList

/-- JS `Number(s)` conversion: trimmed empty string is `0`; otherwise the
whole string must be a signed decimal literal.  (Exponent, hex and
`Infinity` forms are not modelled; they map to NaN.) -/
def numberChars (cs : List Char) : JSNum :=
  let cs := (((cs.dropWhile (fun c => c = ' ')).reverse).dropWhile (fun c => c = ' ')).reverse
  if cs.isEmpty then .ofInt 0
  else
    let sgn : Int := match cs with | '-' :: _ => -1 | _ => 1
    let cs2 := match cs with | '-' :: r => r | '+' :: r => r | _ => cs
    let ip := cs2.takeWhile Char.isDigit
    let rest := cs2.dropWhile Char.isDigit
    match rest with
    | [] => if ip.isEmpty then .nan else .ofInt (sgn * decValue ip)
    | '.' :: r2 =>
      let fp := r2.takeWhile Char.isDigit
      let rest2 := r2.dropWhile Char.isDigit
      if rest2.isEmpty && !(ip.isEmpty && fp.isEmpty) then
        .num (JQ.norm ⟨sgn * ((decValue ip : Int) * (10 ^ fp.length : Nat) + decValue fp), 10 ^ fp.length⟩)
      else .nan
    | _ => .nan

def jsNumber (s : String) : JSNum := numberChars s.toList

def isLeap (y : Nat) : Bool := (y % 4 == 0 && y % 100 != 0) || y % 400 == 0

def daysInMonth (y m : Nat) : Nat :=
  if m = 2 then (if isLeap y then 29 else 28)
  else if m = 4 ∨ m = 6 ∨ m = 9 ∨ m = 11 then 30 else 31

/-- Days from the civil epoch of year 0 (Hinnant's `days_from_civil`,
specialised to non-negative years so natural-number division is floor
division). -/
def civilDays (y m d : Nat) : Nat :=
  let y2 := if m ≤ 2 then y - 1 else y
  let era := y2 / 400
  let yoe := y2 % 400
  let mp := (m + 9) % 12
  let doy := (153 * mp + 2) / 5 + (d - 1)
  let doe := yoe * 365 + yoe / 4 - yoe / 100 + doy
  era * 146097 + doe

/-- JS `Date.parse`, modelled on date-only ISO strings `YYYY-MM-DD`
(years ≥ 1970): milliseconds since the Unix epoch.  Every other input
yields NaN, matching the builtin's NaN result on unparseable input.
(The builtin also accepts datetime forms; the claims only rely on the
parseable/NaN split.) -/
def jsDateParse (s : String) : JSNum :=
  match s.toList with
  | [y1, y2, y3, y4, '-', m1, m2, '-', d1, d2] =>
    if [y1, y2, y3, y4, m1, m2, d1, d2].all Char.isDigit then
      let y := decValue [y1, y2, y3, y4]
      let m := decValue [m1, m2]
      let d := decValue [d1, d2]
      if 1970 ≤ y ∧ 1 ≤ m ∧ m ≤ 12 ∧ 1 ≤ d ∧ d ≤ daysInMonth y m then
        .ofInt (((civilDays y m d - civilDays 1970 1 1 : Nat) : Int) * 86400000)
      else .nan
    else .nan
  | _ => .nan

/-- `path.extname`: the suffix of the last path segment from its last
dot, empty when the dot is absent or leads the segment. -/
def extChars (cs : List Char) : List Char :=
  let base := ((cs.reverse).takeWhile (fun c => c ≠ '/')).reverse
  let rev := base.reverse
  match rev.dropWhile (fun c => c ≠ '.') with
  | '.' :: rest =>
    if rest.isEmpty then [] else '.' :: ((rev.takeWhile (fun c => c ≠ '.')).reverse)
  | _ => []

def extName (s : String) : String := String.mk (extChars s.toList)

/-- `String.prototype.replace` with a plain (non-global) pattern: remove
the first occurrence of `pat`. -/
def replaceFirstChars (pat : List Char) : List Char → List Char
  | [] => []
  | c :: rest =>
    if pat.isPrefixOf (c :: rest) then (c :: rest).drop pat.length
    else c :: replaceFirstChars pat rest

namespace Dedup

/-- One row of `points.json` as written by the deduplicating upload route
of `src/unnamed/part_001`. -/
structure Record where
  id : String
  lat : JSNum
  lon : JSNum
  accuracy : JSNum
  note : String
  category : String
  captured_at : JSNum
  created_at : Int
  kind : String
  mime : String
  size : Nat
  file_path : String
  hash : Nat
deriving DecidableEq, Inhabited

/-- The multipart form fields of an upload (`req.body`); an absent field
is `none`. -/
structure UploadBody where
  lat : Option String
  lon : Option String
  accuracy : Option String
  captured_at : Option String
  note : Option String
  category : Option String
deriving DecidableEq, Inhabited

/-- The staged temporary file multer hands the route (`req.files[0]`). -/
structure StagedFile where
  path : String
  originalname : String
  filename : String
  mimetype : String
  size : Nat
  content : List Nat
deriving DecidableEq, Inhabited

/-- Server state the route touches: the record collection (`points.json`)
and the blob directory as a path → bytes association list. -/
structure Store where
  db : List Record
  files : List (String × List Nat)
deriving DecidableEq, Inhabited

/-- The JSON response of the upload route. -/
inductive UploadResp where
  | badRequest : UploadResp
  | ok (id : String) (duplicate : Bool) : UploadResp
deriving DecidableEq, Inhabited

/-- `path.extname(file.originalname || file.filename) || ''`. -/
def extOf (f : StagedFile) : String :=
  extName (if f.originalname ≠ "" then f.originalname else f.filename)

/-- The permanent blob location `path.join(UPLOAD_DIR, id + ext)`. -/
def finalPath (f : StagedFile) (freshId : String) : String :=
  "uploads/" ++ freshId ++ extOf f

/-- The record the miss path of `POST /upload` appends: form fields
parsed with the permissive defaults of `src/unnamed/part_001` lines
90–111. -/
def mkRecord (hashFn : List Nat → Nat) (f : StagedFile) (body : UploadBody)
    (freshId : String) (now : Int) : Record where
  id := freshId
  lat := jsParseFloat (nullish body.lat "0")
  lon := jsParseFloat (nullish body.lon "0")
  accuracy := jsParseFloat (nullish body.accuracy "0")
  note := (nullish body.note "").take 500
  category := strOr body.category "other"
  captured_at :=
    match body.captured_at with
    | some s => if s ≠ "" then jsDateParse s else .ofInt now
    | none => .ofInt now
  created_at := now
  kind := if f.mimetype.startsWith "image/" then "image" else "video"
  mime := f.mimetype
  size := f.size
  file_path := finalPath f freshId
  hash := hashFn f.content

/-- `POST /upload` of `src/unnamed/part_001`: hash the staged blob, look
the digest up in the collection; on a hit delete the staged file and
answer with the existing id and `duplicate: true`; on a miss parse the
form fields, move the blob to `uploads/<id><ext>`, append the record and
answer `duplicate: false`.  `hashFn` abstracts the SHA-256 stream digest,
`freshId` the nanoid, `now` the `Date.now()` ingestion instant. -/
def upload (hashFn : List Nat → Nat) (st : Store) (file : Option StagedFile)
    (body : UploadBody) (freshId : String) (now : Int) : UploadResp × Store :=
  match file with
  | none => (.badRequest, st)
  | some f =>
    match st.db.find? (fun p => p.hash == hashFn f.content) with
    | some dup => (.ok dup.id true, ⟨st.db, st.files.eraseP (fun pr => pr.1 == f.path)⟩)
    | none =>
      (.ok freshId false,
        ⟨st.db ++ [mkRecord hashFn f body freshId now],
          (st.files.eraseP (fun pr => pr.1 == f.path)) ++ [(finalPath f freshId, f.content)]⟩)

end Dedup

namespace Media

/-- One row of `points.json` as written by the upload route of
`src/unnamed/part_002` (numeric timestamps, no content hash). -/
structure Record where
  id : String
  lat : JSNum
  lon : JSNum
  accuracy : JSNum
  note : String
  captured_at : JSNum
  created_at : JSNum
  kind : String
  mime : String
  size : Nat
  file_path : String
deriving DecidableEq, Inhabited

/-- The reference timestamp of the hours filter:
`p.created_at || p.captured_at || 0` (JS truthiness, so `0` and `NaN`
fall through). -/
def refTs (p : Record) : JSNum := jsOr p.created_at (jsOr p.captured_at (.ofInt 0))

/-- The hours-window step of `GET /map-points` in `src/unnamed/part_002`:
`hours` is parsed only when the raw parameter is truthy, and the filter
runs only when the parsed value is truthy and finite. -/
def hoursFilter (db : List Record) (hours : Option String) (now : Int) : List Record :=
  match hours with
  | some hs =>
    if hs ≠ "" then
      match jsParseInt hs with
      | .num h =>
        if h.n ≠ 0 then
          db.filter (fun p => JSNum.ge (refTs p) (JSNum.sub (.ofInt now) (JSNum.mul (.num h) (.ofInt 3600000))))
        else db
      | .nan => db
    else db
  | none => db

/-- The bbox step of `GET /map-points` in `src/unnamed/part_002`: the
filter runs only when the parameter is truthy and splits into exactly
four finite numbers; otherwise it is silently skipped. -/
def bboxFilter (db : List Record) (bbox : Option String) : List Record :=
  match bbox with
  | some bs =>
    if bs ≠ "" then
      match (splitOnChar ',' bs.toList).map (fun cs => numberChars cs) with
      | [w, s, e, n] =>
        if w.finite && s.finite && e.finite && n.finite then
          db.filter (fun p => JSNum.ge p.lon w && JSNum.le p.lon e && JSNum.ge p.lat s && JSNum.le p.lat n)
        else db
      | _ => db
    else db
  | none => db

/-- `GET /map-points` of `src/unnamed/part_002`: hours window, then bbox,
then the surviving records are returned verbatim. -/
def mapPoints (db : List Record) (bbox hours : Option String) (now : Int) : List Record :=
  bboxFilter (hoursFilter db hours now) bbox

end Media

namespace Pins

/-- One row of `points.json` as written by the upload route of
`src/unnamed/part_000` (ISO-string timestamps, geohash). -/
structure Record where
  id : String
  filepath : String
  lat : JSNum
  lon : JSNum
  captured_at : String
  accuracy : JSNum
  geohash : String
  created_at : String
deriving DecidableEq, Inhabited

/-- The projected shape `GET /map-points` of `src/unnamed/part_000`
returns: only `id`, `lat`, `lon`, `captured_at`. -/
structure Point where
  id : String
  lat : JSNum
  lon : JSNum
  captured_at : String
deriving DecidableEq, Inhabited

def proj (r : Record) : Point := ⟨r.id, r.lat, r.lon, r.captured_at⟩

/-- The outcome of the strict `GET /map-points`: a point list, or the 400
response `{ error: 'bbox must be left,bottom,right,top' }`. -/
inductive QueryResult where
  | ok (pts : List Point) : QueryResult
  | badRequest (msg : String) : QueryResult
deriving DecidableEq, Inhabited

/-- `(req.query.bbox || '').toString().split(',').map(Number)`. -/
def bboxNums (bbox : Option String) : List JSNum :=
  (splitOnChar ',' (bbox.getD "").toList).map (fun cs => numberChars cs)

/-- The validation of `src/unnamed/part_000`:
`bbox.length !== 4 || bbox.some(n => !Number.isFinite(n))` fails the
request. -/
def bboxOk (l : List JSNum) : Bool := l.length == 4 && l.all JSNum.finite

/-- `parseInt((req.query.hours || '24').toString(), 10)`. -/
def hoursNum (hours : Option String) : JSNum := jsParseInt (strOr hours "24")

/-- `Date.now() - hours*3600*1000` (NaN when `hours` is unparseable). -/
def sinceMs (hours : Option String) (now : Int) : JSNum :=
  JSNum.sub (.ofInt now) (JSNum.mul (hoursNum hours) (.ofInt 3600000))

/-- The row predicate of `src/unnamed/part_000`: capture time within the
window and the point inside the box `[left, bottom, right, top]`. -/
def keep (sinceV left bottom right top : JSNum) (r : Record) : Bool :=
  JSNum.ge (jsDateParse r.captured_at) sinceV &&
    JSNum.ge r.lat bottom && JSNum.le r.lat top &&
    JSNum.ge r.lon left && JSNum.le r.lon right

/-- The sort order `(a, b) => Date.parse(b.captured_at) - Date.parse(a.captured_at)`:
most recent first. -/
def descLe (a b : Record) : Bool :=
  JSNum.ge (jsDateParse a.captured_at) (jsDateParse b.captured_at)

/-- `GET /map-points` of `src/unnamed/part_000`: reject unless the bbox
parameter (defaulting to the empty string) maps to exactly four finite
numbers; filter by capture time (default window 24 hours) and box, sort
descending by capture time, cap at 5000 rows, project to four fields. -/
def mapPoints (db : List Record) (bbox hours : Option String) (now : Int) :
    QueryResult :=
  let l := bboxNums bbox
  if bboxOk l then
    .ok ((((sortBy descLe (db.filter (keep (sinceMs hours now) l[0]! l[1]! l[2]! l[3]!))).take 5000).map proj))
  else .badRequest "bbox must be left,bottom,right,top"

end Pins

namespace Strict

/-- The observable response of `GET /video/:id` in `src/server.js`:
status, the `Content-Range` triple `(start, end, total)` when present,
the advertised `Content-Length`, and the streamed bytes. -/
structure VResp where
  status : Nat
  contentRange : Option (JQ × JQ × Nat)
  contentLength : JSNum
  body : List Nat
deriving DecidableEq, Inhabited

/-- The bytes `fs.createReadStream(fp, { start, end })` yields: the
inclusive slice, truncated at the end of the file. -/
def streamSlice (content : List Nat) (start count : Nat) : List Nat :=
  (content.drop start).take count

/-- `GET /video/:id` of `src/server.js`, given the blob bytes and the raw
`Range` header.  A falsy (absent or empty) header yields the whole blob
with status 200.  Otherwise the header is split as
`range.replace(/bytes=/, '').split('-')`, `start` is `parseInt` of the
first piece and `end` is `parseInt` of the second piece when that piece
is truthy, else `size - 1`; no further validation happens — the values
are used verbatim in the 206 headers.  When
`fs.createReadStream` rejects the pair (NaN, negative, or start > end)
the route throws and Express answers 500. -/
def videoGet (content : List Nat) (rangeHdr : Option String) : VResp :=
  let size := content.length
  let full : VResp := ⟨200, none, .ofInt size, content⟩
  match rangeHdr with
  | none => full
  | some range =>
    if range = "" then full
    else
      let parts := splitOnChar '-' (replaceFirstChars "bytes=".toList range.toList)
      let sPart := parts.headD []
      let ePart := parts[1]?
      let startN := parseIntChars sPart
      let endN : JSNum :=
        match ePart with
        | some es => if ¬es.isEmpty then parseIntChars es else .ofInt ((size : Int) - 1)
        | none => .ofInt ((size : Int) - 1)
      match startN, endN with
      | .num a, .num b =>
        if JQ.leB (JQ.ofInt 0) a && JQ.leB a b then
          let chunk := JQ.add (JQ.sub b a) (JQ.ofInt 1)
          ⟨206, some (a, b, size), .num chunk, streamSlice content a.toNat chunk.toNat⟩
        else ⟨500, none, .ofInt 0, []⟩
      | _, _ => ⟨500, none, .ofInt 0, []⟩

/-- The `captured_at` expression of `POST /upload` in `src/server.js`
(line 49), in epoch milliseconds:
`captured_at && !Number.isNaN(Date.parse(captured_at)) ? new Date(captured_at) : new Date()`. -/
def whenMs (captured_at : Option String) (now : Int) : Int :=
  match captured_at with
  | some s =>
    if s ≠ "" then
      match jsDateParse s with
      | .num q => q.n
      | .nan => now
    else now
  | none => now

end Strict

end IncidentMap

open IncidentMap

/-! ## Helper lemmas -/

theorem JQ_norm_int (n : Int) : JQ.norm ⟨n, 1⟩ = ⟨n, 1⟩ := by
  simp [JQ.norm, Nat.gcd_one_right]

theorem JQ_add_ofInt (a b : Int) : JQ.add (JQ.ofInt a) (JQ.ofInt b) = JQ.ofInt (a + b) := by
  simp [JQ.add, JQ.ofInt, JQ_norm_int]

theorem JQ_sub_ofInt (a b : Int) : JQ.sub (JQ.ofInt a) (JQ.ofInt b) = JQ.ofInt (a - b) := by
  simp [JQ.sub, JQ.ofInt, JQ_norm_int]

theorem JQ_mul_ofInt (a b : Int) : JQ.mul (JQ.ofInt a) (JQ.ofInt b) = JQ.ofInt (a * b) := by
  simp [JQ.mul, JQ.ofInt, JQ_norm_int]

theorem JQ_leB_ofInt (a b : Int) : JQ.leB (JQ.ofInt a) (JQ.ofInt b) = decide (a ≤ b) := by
  simp [JQ.leB, JQ.ofInt]

theorem JQ_toNat_ofInt (n : Int) : JQ.toNat (JQ.ofInt n) = n.toNat := by
  simp [JQ.toNat, JQ.ofInt]

theorem JSNum_sub_ofInt (a b : Int) :
    JSNum.sub (.ofInt a) (.ofInt b) = .ofInt (a - b) := by
  simp [JSNum.sub, JSNum.ofInt, JQ_sub_ofInt]

theorem JSNum_mul_ofInt (a b : Int) :
    JSNum.mul (.ofInt a) (.ofInt b) = .ofInt (a * b) := by
  simp [JSNum.mul, JSNum.ofInt, JQ_mul_ofInt]

theorem JSNum_ge_ofInt (a b : Int) :
    JSNum.ge (.ofInt a) (.ofInt b) = decide (b ≤ a) := by
  simp [JSNum.ge, JSNum.ofInt, JQ_leB_ofInt]

theorem mem_insertBy {α : Type} (le : α → α → Bool) (x a : α) (l : List α) :
    a ∈ insertBy le x l ↔ a = x ∨ a ∈ l := by
  induction l with
  | nil => simp [insertBy]
  | cons b t ih =>
    by_cases h : le x b
    · simp [insertBy, h]
    · simp [insertBy, h, ih]
      tauto

theorem mem_sortBy {α : Type} (le : α → α → Bool) (a : α) (l : List α) :
    a ∈ sortBy le l ↔ a ∈ l := by
  induction l with
  | nil => simp [sortBy]
  | cons b t ih => simp [sortBy, mem_insertBy, ih]

theorem length_insertBy {α : Type} (le : α → α → Bool) (x : α) (l : List α) :
    (insertBy le x l).length = l.length + 1 := by
  induction l with
  | nil => simp [insertBy]
  | cons b t ih => by_cases h : le x b <;> simp [insertBy, h, ih]

theorem length_sortBy {α : Type} (le : α → α → Bool) (l : List α) :
    (sortBy le l).length = l.length := by
  induction l with
  | nil => simp [sortBy]
  | cons b t ih => simp [sortBy, length_insertBy, ih]

/-! ## Claim C1 -/

/-- Claim C1: an upload whose content bytes hash to a digest already in
the record index answers with the existing record's id and
`duplicate = true`, appends no record, creates no permanent blob (the
only file change is dropping the staged temp file); and uploading
identical bytes twice yields the same id, the second call being such a
duplicate hit. -/
theorem upload_dedup_idempotent
    (hashFn : List Nat → Nat) (st : Dedup.Store)
    (f1 f2 : Dedup.StagedFile) (b1 b2 : Dedup.UploadBody)
    (id1 id2 : String) (t1 t2 : Int) (hc : f2.content = f1.content) :
    (∀ d, st.db.find? (fun p => p.hash == hashFn f1.content) = some d →
      Dedup.upload hashFn st (some f1) b1 id1 t1 =
        (.ok d.id true, ⟨st.db, st.files.eraseP (fun pr => pr.1 == f1.path)⟩)) ∧
    (∀ i b st1, Dedup.upload hashFn st (some f1) b1 id1 t1 = (.ok i b, st1) →
      ∃ st2, Dedup.upload hashFn st1 (some f2) b2 id2 t2 = (.ok i true, st2) ∧
        st2.db = st1.db ∧ st2.files = st1.files.eraseP (fun pr => pr.1 == f2.path)) := by
  constructor
  · intro d hd
    simp [Dedup.upload, hd]
  · intro i b st1 h1
    cases hfind : st.db.find? (fun p => p.hash == hashFn f1.content) with
    | some d =>
      simp [Dedup.upload, hfind] at h1
      obtain ⟨⟨hi, _hb⟩, hst⟩ := h1
      refine ⟨⟨st1.db, st1.files.eraseP (fun pr => pr.1 == f2.path)⟩, ?_, rfl, rfl⟩
      simp [Dedup.upload, hc, ← hst, hfind, hi]
    | none =>
      simp [Dedup.upload, hfind] at h1
      obtain ⟨⟨hi, _hb⟩, hst⟩ := h1
      refine ⟨⟨st1.db, st1.files.eraseP (fun pr => pr.1 == f2.path)⟩, ?_, rfl, rfl⟩
      have hfind2 : st1.db.find? (fun p => p.hash == hashFn f2.content) =
          some (Dedup.mkRecord hashFn f1 b1 id1 t1) := by
        rw [hc, ← hst, List.find?_append, hfind]
        simp [List.find?, Dedup.mkRecord]
      simp [Dedup.upload, hfind2, Dedup.mkRecord, hi]

/-- Witness for C1: a store holding a record with digest 3 (the sum hash
of bytes `[1, 2]`); re-uploading those bytes answers `ok "old1" true`
and only deletes the staged temp file. -/
theorem upload_dedup_idempotent_witness :
    Dedup.upload (fun c => c.sum)
      ⟨[⟨"old1", .ofInt 1, .ofInt 2, .ofInt 0, "", "other", .ofInt 5, 5, "video", "", 2,
          "uploads/old1.mov", 3⟩], [("tmp/9", [1, 2])]⟩
      (some ⟨"tmp/9", "a.mov", "9_a.mov", "video/mp4", 2, [1, 2]⟩)
      ⟨none, none, none, none, none, none⟩ "newid" 99 =
    (.ok "old1" true,
      ⟨[⟨"old1", .ofInt 1, .ofInt 2, .ofInt 0, "", "other", .ofInt 5, 5, "video", "", 2,
          "uploads/old1.mov", 3⟩], []⟩) := by
  have h := (upload_dedup_idempotent (fun c => c.sum)
      ⟨[⟨"old1", .ofInt 1, .ofInt 2, .ofInt 0, "", "other", .ofInt 5, 5, "video", "", 2,
          "uploads/old1.mov", 3⟩], [("tmp/9", [1, 2])]⟩
      ⟨"tmp/9", "a.mov", "9_a.mov", "video/mp4", 2, [1, 2]⟩
      ⟨"tmp/9", "a.mov", "9_a.mov", "video/mp4", 2, [1, 2]⟩
      ⟨none, none, none, none, none, none⟩ ⟨none, none, none, none, none, none⟩
      "newid" "newid" 99 99 rfl).1
      ⟨"old1", .ofInt 1, .ofInt 2, .ofInt 0, "", "other", .ofInt 5, 5, "video", "", 2,
        "uploads/old1.mov", 3⟩ (by decide)
  exact h.trans (by decide)

/-! ## Claim C10 -/

/-- Claim C10: on the duplicate path the persisted record collection is
left unchanged and the response and state do not depend on the form
fields, the fresh id, or the clock — the second upload's `lat`, `lon`,
`accuracy`, `note` and `category` are never written anywhere — and the
only filesystem effect is deleting the staged temp file. -/
theorem upload_duplicate_frame
    (hashFn : List Nat → Nat) (st : Dedup.Store) (f : Dedup.StagedFile)
    (b1 b2 : Dedup.UploadBody) (i1 i2 : String) (t1 t2 : Int)
    (d : Dedup.Record)
    (hd : st.db.find? (fun p => p.hash == hashFn f.content) = some d) :
    Dedup.upload hashFn st (some f) b1 i1 t1 = Dedup.upload hashFn st (some f) b2 i2 t2 ∧
    (Dedup.upload hashFn st (some f) b1 i1 t1).2.db = st.db ∧
    (Dedup.upload hashFn st (some f) b1 i1 t1).2.files =
      st.files.eraseP (fun pr => pr.1 == f.path) := by
  refine ⟨?_, ?_, ?_⟩ <;> simp [Dedup.upload, hd]

/-- Witness for C10: two duplicate uploads of bytes `[1, 2]` with
entirely different form fields, ids and clocks produce the same response
and state. -/
theorem upload_duplicate_frame_witness :
    Dedup.upload (fun c => c.sum)
      ⟨[⟨"old1", .ofInt 1, .ofInt 2, .ofInt 0, "", "other", .ofInt 5, 5, "video", "", 2,
          "uploads/old1.mov", 3⟩], [("tmp/9", [1, 2])]⟩
      (some ⟨"tmp/9", "a.mov", "9_a.mov", "video/mp4", 2, [1, 2]⟩)
      ⟨some "1", some "2", some "3", some "1970-01-02", some "n", some "fire"⟩ "idA" 11 =
    Dedup.upload (fun c => c.sum)
      ⟨[⟨"old1", .ofInt 1, .ofInt 2, .ofInt 0, "", "other", .ofInt 5, 5, "video", "", 2,
          "uploads/old1.mov", 3⟩], [("tmp/9", [1, 2])]⟩
      (some ⟨"tmp/9", "a.mov", "9_a.mov", "video/mp4", 2, [1, 2]⟩)
      ⟨none, none, none, none, none, none⟩ "idB" 22 :=
  (upload_duplicate_frame (fun c => c.sum)
    ⟨[⟨"old1", .ofInt 1, .ofInt 2, .ofInt 0, "", "other", .ofInt 5, 5, "video", "", 2,
        "uploads/old1.mov", 3⟩], [("tmp/9", [1, 2])]⟩
    ⟨"tmp/9", "a.mov", "9_a.mov", "video/mp4", 2, [1, 2]⟩
    ⟨some "1", some "2", some "3", some "1970-01-02", some "n", some "fire"⟩
    ⟨none, none, none, none, none, none⟩ "idA" "idB" 11 22
    ⟨"old1", .ofInt 1, .ofInt 2, .ofInt 0, "", "other", .ofInt 5, 5, "video", "", 2,
      "uploads/old1.mov", 3⟩ (by decide)).1

/-! ## Claim C5 -/

/-- Counterexample to C5 as stated: uploading with `category=bogus`
stores the string `"bogus"` verbatim, not `"other"`, so the stored
category is not confined to the closed set. -/
theorem upload_category_bogus_cex :
    ((Dedup.upload (fun c => c.sum) ⟨[], []⟩
        (some ⟨"tmp/1", "a.mov", "1_a.mov", "video/mp4", 2, [1, 2]⟩)
        ⟨none, none, none, none, none, some "bogus"⟩ "id1" 0).2.db.map
      (fun r => r.category)) = ["bogus"] ∧ "bogus" ≠ "other" := by
  decide

/-- Claim C5 as amended: the stored category is the raw form value with
`"other"` substituted only for an absent or empty field — `fire` is
stored as `"fire"`, a missing category as `"other"`, but an unrecognized
value such as `"bogus"` is stored verbatim; no closed-set normalization
happens. -/
theorem upload_category_verbatim
    (hashFn : List Nat → Nat) (st : Dedup.Store) (f : Dedup.StagedFile)
    (body : Dedup.UploadBody) (fid : String) (now : Int)
    (hmiss : st.db.find? (fun p => p.hash == hashFn f.content) = none) :
    ((Dedup.upload hashFn st (some f) body fid now).2.db.map (fun r => r.category)) =
      (st.db.map (fun r => r.category)) ++ [strOr body.category "other"] ∧
    strOr (some "fire") "other" = "fire" ∧
    strOr (some "bogus") "other" = "bogus" ∧
    strOr none "other" = "other" := by
  refine ⟨?_, by decide, by decide, by decide⟩
  simp [Dedup.upload, hmiss, Dedup.mkRecord]

/-- Witness for C5 (amended): on an empty store, uploading with
`category=fire` stores the category list `["fire"]`. -/
theorem upload_category_verbatim_witness :
    ((Dedup.upload (fun c => c.sum) ⟨[], []⟩
        (some ⟨"tmp/1", "a.mov", "1_a.mov", "video/mp4", 2, [1, 2]⟩)
        ⟨none, none, none, none, none, some "fire"⟩ "id1" 0).2.db.map
      (fun r => r.category)) = ["fire"] := by
  have h := (upload_category_verbatim (fun c => c.sum) ⟨[], []⟩
      ⟨"tmp/1", "a.mov", "1_a.mov", "video/mp4", 2, [1, 2]⟩
      ⟨none, none, none, none, none, some "fire"⟩ "id1" 0 (by decide)).1
  exact h.trans (by decide)

/-! ## Claim C6 -/

/-- Counterexample to C6 as stated: uploading with the non-numeric
`lat=abc` stores `NaN`, not `0` (the upload still succeeds). -/
theorem upload_lat_nonnumeric_cex :
    ((Dedup.upload (fun c => c.sum) ⟨[], []⟩
        (some ⟨"tmp/1", "a.mov", "1_a.mov", "video/mp4", 2, [1, 2]⟩)
        ⟨some "abc", none, none, none, none, none⟩ "id1" 0).2.db.map
      (fun r => r.lat)) = [JSNum.nan] ∧ JSNum.nan ≠ JSNum.ofInt 0 := by
  decide

/-- Claim C6 as amended (dedup variant): `lat`, `lon` and `accuracy` are
parsed with `parseFloat` over the raw field with the string `"0"`
substituted only for an absent field, and the upload succeeds either
way — so a missing field stores `0`, but a present non-numeric value
stores `NaN` rather than `0`.  (The strict variant `src/server.js`
instead rejects a non-finite lat/lon with a 400.) -/
theorem upload_numeric_parsing
    (hashFn : List Nat → Nat) (st : Dedup.Store) (f : Dedup.StagedFile)
    (body : Dedup.UploadBody) (fid : String) (now : Int)
    (hmiss : st.db.find? (fun p => p.hash == hashFn f.content) = none) :
    (Dedup.upload hashFn st (some f) body fid now).1 = .ok fid false ∧
    ((Dedup.upload hashFn st (some f) body fid now).2.db.map
        (fun r => (r.lat, r.lon, r.accuracy))) =
      (st.db.map (fun r => (r.lat, r.lon, r.accuracy))) ++
        [(jsParseFloat (nullish body.lat "0"), jsParseFloat (nullish body.lon "0"),
          jsParseFloat (nullish body.accuracy "0"))] ∧
    (nullish none "0" = "0" ∧ jsParseFloat "0" = JSNum.ofInt 0) ∧
    (jsParseFloat "abc" = JSNum.nan ∧ JSNum.nan ≠ JSNum.ofInt 0) := by
  refine ⟨?_, ?_, by decide, by decide⟩
  · simp [Dedup.upload, hmiss]
  · simp [Dedup.upload, hmiss, Dedup.mkRecord]

/-- Witness for C6 (amended): uploading with every numeric field absent
stores `(0, 0, 0)` and succeeds. -/
theorem upload_numeric_parsing_witness :
    (Dedup.upload (fun c => c.sum) ⟨[], []⟩
        (some ⟨"tmp/1", "a.mov", "1_a.mov", "video/mp4", 2, [1, 2]⟩)
        ⟨none, none, none, none, none, none⟩ "id1" 0).1 = .ok "id1" false ∧
    ((Dedup.upload (fun c => c.sum) ⟨[], []⟩
        (some ⟨"tmp/1", "a.mov", "1_a.mov", "video/mp4", 2, [1, 2]⟩)
        ⟨none, none, none, none, none, none⟩ "id1" 0).2.db.map
      (fun r => (r.lat, r.lon, r.accuracy))) =
      [(JSNum.ofInt 0, JSNum.ofInt 0, JSNum.ofInt 0)] := by
  have h := upload_numeric_parsing (fun c => c.sum) ⟨[], []⟩
      ⟨"tmp/1", "a.mov", "1_a.mov", "video/mp4", 2, [1, 2]⟩
      ⟨none, none, none, none, none, none⟩ "id1" 0 (by decide)
  exact ⟨h.1, h.2.1.trans (by decide)⟩

/-! ## Claim C7 -/

/-- Counterexample to C7 as stated: in the dedup variant an upload whose
`captured_at=garbage` fails to parse stores `NaN`, not the ingestion
time 7. -/
theorem upload_captured_at_garbage_cex :
    ((Dedup.upload (fun c => c.sum) ⟨[], []⟩
        (some ⟨"tmp/1", "a.mov", "1_a.mov", "video/mp4", 2, [1, 2]⟩)
        ⟨none, none, none, some "garbage", none, none⟩ "id1" 7).2.db.map
      (fun r => r.captured_at)) = [JSNum.nan] ∧ JSNum.nan ≠ JSNum.ofInt 7 := by
  decide

/-- Claim C7 as amended: in the dedup variant the stored `captured_at`
is `Date.parse` of the client field whenever that field is present and
non-empty — `NaN` is stored verbatim when the parse fails — and is the
ingestion time only when the field is absent or empty; the strict
variant's expression (`src/server.js` line 49) does fall back to the
ingestion time on a parse failure, as the claim says. -/
theorem upload_captured_at_parse
    (hashFn : List Nat → Nat) (st : Dedup.Store) (f : Dedup.StagedFile)
    (body : Dedup.UploadBody) (fid : String) (now : Int)
    (hmiss : st.db.find? (fun p => p.hash == hashFn f.content) = none) :
    (∀ v, body.captured_at = some v → v ≠ "" →
      ((Dedup.upload hashFn st (some f) body fid now).2.db.map (fun r => r.captured_at)) =
        (st.db.map (fun r => r.captured_at)) ++ [jsDateParse v]) ∧
    (body.captured_at = none →
      ((Dedup.upload hashFn st (some f) body fid now).2.db.map (fun r => r.captured_at)) =
        (st.db.map (fun r => r.captured_at)) ++ [JSNum.ofInt now]) ∧
    (∀ v q now2, jsDateParse v = .num q → Strict.whenMs (some v) now2 = q.n) ∧
    (∀ v now2, jsDateParse v = .nan → Strict.whenMs (some v) now2 = now2) ∧
    (∀ now2, Strict.whenMs none now2 = now2) := by
  refine ⟨?_, ?_, ?_, ?_, fun _ => rfl⟩
  · intro v hv hne
    simp [Dedup.upload, hmiss, Dedup.mkRecord, hv, hne]
  · intro hv
    simp [Dedup.upload, hmiss, Dedup.mkRecord, hv]
  · intro v q now2 hp
    have hv : v ≠ "" := by
      intro h
      rw [h] at hp
      simp [jsDateParse] at hp
    simp [Strict.whenMs, hv, hp]
  · intro v now2 hp
    by_cases hv : v = ""
    · simp [Strict.whenMs, hv]
    · simp [Strict.whenMs, hv, hp]

/-- Witness for C7 (amended): a parseable `captured_at=1970-01-02`
stores `Date.parse`'s 86400000 ms, and the strict variant's expression
maps `garbage` to the ingestion time 7. -/
theorem upload_captured_at_parse_witness :
    ((Dedup.upload (fun c => c.sum) ⟨[], []⟩
        (some ⟨"tmp/1", "a.mov", "1_a.mov", "video/mp4", 2, [1, 2]⟩)
        ⟨none, none, none, some "1970-01-02", none, none⟩ "id1" 7).2.db.map
      (fun r => r.captured_at)) = [JSNum.ofInt 86400000] ∧
    Strict.whenMs (some "garbage") 7 = 7 := by
  have h := upload_captured_at_parse (fun c => c.sum) ⟨[], []⟩
      ⟨"tmp/1", "a.mov", "1_a.mov", "video/mp4", 2, [1, 2]⟩
      ⟨none, none, none, some "1970-01-02", none, none⟩ "id1" 7 (by decide)
  refine ⟨(h.1 "1970-01-02" rfl (by decide)).trans (by decide), ?_⟩
  exact h.2.2.2.1 "garbage" 7 (by decide)

/-! ## Claim C3 -/

/-- Counterexample to C3 as stated: with the hours parameter present as
`0`, a record whose reference timestamp (1000 ms) is far below
`now - 0*3600s = now` is still returned — JS treats the parsed `0` as
falsy and skips the filter entirely. -/
theorem mapPoints_hours_zero_cex :
    Media.mapPoints
      [⟨"a", .ofInt 0, .ofInt 0, .ofInt 0, "", .ofInt 0, .ofInt 1000, "video", "", 1,
          "uploads/a.mov"⟩] none (some "0") 1000000000000 =
      [⟨"a", .ofInt 0, .ofInt 0, .ofInt 0, "", .ofInt 0, .ofInt 1000, "video", "", 1,
          "uploads/a.mov"⟩] ∧
    JSNum.ge
      (Media.refTs ⟨"a", .ofInt 0, .ofInt 0, .ofInt 0, "", .ofInt 0, .ofInt 1000, "video", "",
        1, "uploads/a.mov"⟩)
      (JSNum.ofInt (1000000000000 - 0 * 3600000)) = false := by
  decide

/-- Claim C3 as amended: when the hours parameter parses to a nonzero
integer `h`, a record is included iff its reference timestamp
(`created_at`, falling back to `captured_at`, then `0`, by JS
truthiness) is `≥ now - h*3600s`; when the parameter is absent no time
filter is applied — but the same holds when it is empty, parses to `0`,
or is unparseable, since those parses are falsy. -/
theorem mapPoints_hours_filter
    (db : List Media.Record) (p : Media.Record) (now h : Int) (hs : String)
    (hpar : jsParseInt hs = .num (JQ.ofInt h)) (hnz : h ≠ 0) (hne : hs ≠ "") :
    (p ∈ Media.mapPoints db none (some hs) now ↔
      p ∈ db ∧ JSNum.ge (Media.refTs p) (JSNum.ofInt (now - h * 3600000)) = true) ∧
    (∀ q : Media.Record, q ∈ Media.mapPoints db none none now ↔ q ∈ db) ∧
    (∀ (q : Media.Record) (hs2 : String), hs2 ≠ "" →
      (jsParseInt hs2 = .num (JQ.ofInt 0) ∨ jsParseInt hs2 = .nan) →
      (q ∈ Media.mapPoints db none (some hs2) now ↔ q ∈ db)) := by
  refine ⟨?_, ?_, ?_⟩
  · have harith : (JSNum.ofInt now).sub ((JSNum.num ⟨h, 1⟩).mul (JSNum.ofInt 3600000)) =
        JSNum.ofInt (now - h * 3600000) := by
      rw [show JSNum.num (⟨h, 1⟩ : JQ) = JSNum.ofInt h from rfl, JSNum_mul_ofInt,
        JSNum_sub_ofInt]
    simp [Media.mapPoints, Media.bboxFilter, Media.hoursFilter, hne, hpar, hnz, JQ.ofInt,
      List.mem_filter, harith]
  · intro q
    simp [Media.mapPoints, Media.bboxFilter, Media.hoursFilter]
  · intro q hs2 hne2 hp2
    rcases hp2 with hp2 | hp2 <;>
      simp [Media.mapPoints, Media.bboxFilter, Media.hoursFilter, hne2, hp2, JQ.ofInt]

/-- Witness for C3 (amended): with `hours=48`, a record 1000 ms old at a
large `now` is inside the window and is returned. -/
theorem mapPoints_hours_filter_witness :
    (⟨"a", .ofInt 0, .ofInt 0, .ofInt 0, "", .ofInt 0, .ofInt 999999999999, "video", "", 1,
        "uploads/a.mov"⟩ : Media.Record) ∈
      Media.mapPoints
        [⟨"a", .ofInt 0, .ofInt 0, .ofInt 0, "", .ofInt 0, .ofInt 999999999999, "video", "", 1,
            "uploads/a.mov"⟩] none (some "48") 1000000000000 :=
  ((mapPoints_hours_filter
      [⟨"a", .ofInt 0, .ofInt 0, .ofInt 0, "", .ofInt 0, .ofInt 999999999999, "video", "", 1,
          "uploads/a.mov"⟩]
      ⟨"a", .ofInt 0, .ofInt 0, .ofInt 0, "", .ofInt 0, .ofInt 999999999999, "video", "", 1,
        "uploads/a.mov"⟩
      1000000000000 48 "48" (by decide) (by decide) (by decide)).1).mpr (by decide)

/-! ## Claim C9 -/

/-- Counterexample to C9 as stated: the map-points route of
`src/unnamed/part_002` returns the stored records verbatim, so the
returned point carries the server-local blob path
`uploads/secret.mov`. -/
theorem mapPoints_exposes_path_cex :
    Media.mapPoints
      [⟨"a", .ofInt 5, .ofInt 5, .ofInt 0, "", .ofInt 0, .ofInt 999, "video", "", 1,
          "uploads/secret.mov"⟩] none none 0 =
      [⟨"a", .ofInt 5, .ofInt 5, .ofInt 0, "", .ofInt 0, .ofInt 999, "video", "", 1,
          "uploads/secret.mov"⟩] ∧
    (⟨"a", .ofInt 5, .ofInt 5, .ofInt 0, "", .ofInt 0, .ofInt 999, "video", "", 1,
        "uploads/secret.mov"⟩ : Media.Record).file_path = "uploads/secret.mov" := by
  decide

/-- Claim C9 as amended: the strict variant (`src/unnamed/part_000`)
does project every returned point onto the externally-safe fields
`id`, `lat`, `lon`, `captured_at` of some stored record — its output
never carries a blob path — but the variant of `src/unnamed/part_002`
returns stored records verbatim, `file_path` included. -/
theorem mapPoints_projection
    (db : List Pins.Record) (bbox hours : Option String) (now : Int)
    (pts : List Pins.Point)
    (hok : Pins.mapPoints db bbox hours now = .ok pts) :
    ∀ pt ∈ pts, ∃ r ∈ db, pt = Pins.proj r := by
  intro pt hpt
  by_cases hb : Pins.bboxOk (Pins.bboxNums bbox)
  · rw [Pins.mapPoints] at hok
    simp only [hb, if_true, Pins.QueryResult.ok.injEq] at hok
    rw [← hok] at hpt
    obtain ⟨r, hr, hrp⟩ := List.mem_map.mp hpt
    have hr2 := List.mem_of_mem_take hr
    have hr3 := (mem_sortBy _ _ _).mp hr2
    exact ⟨r, (List.mem_filter.mp hr3).1, hrp.symm⟩
  · rw [Pins.mapPoints] at hok
    simp [hb] at hok

/-- Witness for C9 (amended): a concrete strict-variant query returns
the projected point, which is the projection of the stored record. -/
theorem mapPoints_projection_witness :
    ∃ r ∈ [(⟨"a", "up/a.mov", .ofInt 10, .ofInt 10, "1970-01-02", .ofInt 0, "g",
        "1970-01-02"⟩ : Pins.Record)],
      (⟨"a", .ofInt 10, .ofInt 10, "1970-01-02"⟩ : Pins.Point) = Pins.proj r :=
  mapPoints_projection
    [⟨"a", "up/a.mov", .ofInt 10, .ofInt 10, "1970-01-02", .ofInt 0, "g", "1970-01-02"⟩]
    (some "0,0,30,30") none 86400000
    [⟨"a", .ofInt 10, .ofInt 10, "1970-01-02"⟩] (by decide)
    ⟨"a", .ofInt 10, .ofInt 10, "1970-01-02"⟩ (by decide)

/-! ## Claim C4 -/

theorem bboxOk_iff (l : List JSNum) :
    Pins.bboxOk l = true ↔ l.length = 4 ∧ ∀ v ∈ l, JSNum.finite v = true := by
  simp [Pins.bboxOk, List.all_eq_true]

/-- Counterexample to C4 as stated: with the bbox parameter absent the
strict map-points route of `src/unnamed/part_000` answers the 400
error — `(req.query.bbox || '')` splits into the single element
`Number('') = 0` — instead of succeeding with no spatial filter. -/
theorem mapPoints_bbox_absent_cex :
    Pins.mapPoints
      [⟨"a", "up/a.mov", .ofInt 10, .ofInt 10, "1970-01-02", .ofInt 0, "g", "1970-01-02"⟩]
      none none 86400000 = .badRequest "bbox must be left,bottom,right,top" := by
  decide

/-- Claim C4 as amended: the query fails with the 400 validation error
iff splitting the bbox parameter (defaulting to the empty string) on
commas and converting with `Number` does not give exactly four finite
numbers — in particular an absent bbox also fails, since it parses to
the single element `0`.  When the bbox is four finite numbers the query
succeeds, and (up to the 5000-row cap) a point is returned iff it is
the projection of a stored record with `west ≤ lon ≤ east`,
`south ≤ lat ≤ north`, and `captured_at` within the hours window
(default 24 h). -/
theorem mapPoints_bbox_validation
    (db : List Pins.Record) (bbox hours : Option String) (now : Int) :
    ((∃ msg, Pins.mapPoints db bbox hours now = .badRequest msg) ↔
      ¬((Pins.bboxNums bbox).length = 4 ∧ ∀ v ∈ Pins.bboxNums bbox, JSNum.finite v = true)) ∧
    (∀ w s e n : JQ, Pins.bboxNums bbox = [.num w, .num s, .num e, .num n] →
      ∀ h : Int, Pins.hoursNum hours = .ofInt h →
      db.length ≤ 5000 →
      ∀ pt : Pins.Point,
        (∃ pts, Pins.mapPoints db bbox hours now = .ok pts ∧ pt ∈ pts) ↔
        ∃ r ∈ db, pt = Pins.proj r ∧
          (JSNum.ge (jsDateParse r.captured_at) (JSNum.ofInt (now - h * 3600000)) &&
            JSNum.ge r.lat (.num s) && JSNum.le r.lat (.num n) &&
            JSNum.ge r.lon (.num w) && JSNum.le r.lon (.num e)) = true) := by
  constructor
  · rw [Pins.mapPoints]
    by_cases hb : Pins.bboxOk (Pins.bboxNums bbox) = true
    · simp only [hb, if_true]
      constructor
      · rintro ⟨msg, hmsg⟩
        cases hmsg
      · intro hneg
        exact absurd ((bboxOk_iff _).mp hb) hneg
    · simp only [hb]
      simp only [Bool.not_eq_true] at hb
      simp only [hb, Bool.false_eq_true, if_false]
      constructor
      · intro _
        intro hcontra
        rw [(bboxOk_iff _).mpr hcontra] at hb
        cases hb
      · intro _
        exact ⟨"bbox must be left,bottom,right,top", rfl⟩
  · intro w s e n hbl h hh hlen pt
    have hok : Pins.bboxOk (Pins.bboxNums bbox) = true := by
      rw [hbl]
      rfl
    have hsin : Pins.sinceMs hours now = JSNum.ofInt (now - h * 3600000) := by
      rw [Pins.sinceMs, hh, JSNum_mul_ofInt, JSNum_sub_ofInt]
    have htake : (sortBy Pins.descLe
        (db.filter (Pins.keep (Pins.sinceMs hours now) (Pins.bboxNums bbox)[0]!
          (Pins.bboxNums bbox)[1]! (Pins.bboxNums bbox)[2]! (Pins.bboxNums bbox)[3]!))).length ≤ 5000 := by
      rw [length_sortBy]
      exact le_trans (List.length_filter_le _ _) hlen
    rw [Pins.mapPoints]
    simp only [hok, if_true, List.take_of_length_le htake, Pins.QueryResult.ok.injEq]
    simp only [hbl, List.getElem!_cons_zero, List.getElem!_cons_succ, hsin]
    constructor
    · rintro ⟨pts, hpts, hmem⟩
      rw [← hpts] at hmem
      obtain ⟨r, hr, hrp⟩ := List.mem_map.mp hmem
      obtain ⟨hrdb, hrkeep⟩ := List.mem_filter.mp ((mem_sortBy _ _ _).mp hr)
      refine ⟨r, hrdb, hrp.symm, ?_⟩
      simpa [Pins.keep, hsin, hbl, List.getElem!_cons_zero, List.getElem!_cons_succ] using hrkeep
    · rintro ⟨r, hrdb, hrp, hkeep⟩
      refine ⟨_, rfl, ?_⟩
      refine List.mem_map.mpr ⟨r, (mem_sortBy _ _ _).mpr (List.mem_filter.mpr ⟨hrdb, ?_⟩), hrp.symm⟩
      simpa [Pins.keep, hsin, hbl, List.getElem!_cons_zero, List.getElem!_cons_succ] using hkeep

/-- Witness for C4 (amended): `bbox=0,0,30,30` with no hours parameter
(default 24) returns the projected point at `(10, 10)`. -/
theorem mapPoints_bbox_validation_witness :
    ∃ pts, Pins.mapPoints
        [⟨"a", "up/a.mov", .ofInt 10, .ofInt 10, "1970-01-02", .ofInt 0, "g", "1970-01-02"⟩]
        (some "0,0,30,30") none 86400000 = .ok pts ∧
      (⟨"a", .ofInt 10, .ofInt 10, "1970-01-02"⟩ : Pins.Point) ∈ pts :=
  ((mapPoints_bbox_validation
      [⟨"a", "up/a.mov", .ofInt 10, .ofInt 10, "1970-01-02", .ofInt 0, "g", "1970-01-02"⟩]
      (some "0,0,30,30") none 86400000).2
    (JQ.ofInt 0) (JQ.ofInt 0) (JQ.ofInt 30) (JQ.ofInt 30) (by decide)
    24 (by decide) (by decide)
    ⟨"a", .ofInt 10, .ofInt 10, "1970-01-02"⟩).mpr (by decide)

/-! ## Claims C2 and C8 -/

theorem videoGet_parsed
    (content : List Nat) (r : String) (sStr eStr : List Char) (start endB : Nat)
    (hp : splitOnChar '-' (replaceFirstChars "bytes=".toList r.toList) = [sStr, eStr])
    (hs : parseIntChars sStr = .ofInt start)
    (he : parseIntChars eStr = .ofInt endB)
    (hne : eStr.isEmpty = false)
    (hse : start ≤ endB) :
    Strict.videoGet content (some r) =
      ⟨206, some (JQ.ofInt start, JQ.ofInt endB, content.length),
        .ofInt ((endB : Int) - (start : Int) + 1),
        (content.drop start).take (endB - start + 1)⟩ := by
  have hrne : ¬r = "" := by
    intro h0
    rw [h0] at hp
    rw [show splitOnChar '-' (replaceFirstChars "bytes=".toList "".toList) = [[]] from by decide] at hp
    simp at hp
  have hcond : (JQ.leB (JQ.ofInt 0) (JQ.ofInt (start : Int)) &&
      JQ.leB (JQ.ofInt (start : Int)) (JQ.ofInt (endB : Int))) = true := by
    rw [JQ_leB_ofInt, JQ_leB_ofInt]
    simp only [Bool.and_eq_true, decide_eq_true_eq]
    omega
  have htn1 : (JQ.ofInt (start : Int)).toNat = start := by
    rw [JQ_toNat_ofInt]
    omega
  have htn2 : (JQ.ofInt ((endB : Int) - (start : Int) + 1)).toNat = endB - start + 1 := by
    rw [JQ_toNat_ofInt]
    omega
  rw [Strict.videoGet]
  simp only [if_neg hrne, hp, List.headD_cons, hs, he, hne, Bool.not_false, if_true,
    List.getElem?_cons_succ, List.getElem?_cons_zero, Option.some.injEq]
  simp only [Bool.false_eq_true, not_false_eq_true, if_true, JSNum.ofInt]
  simp only [hcond, if_true, JQ_sub_ofInt, JQ_add_ofInt, htn1, htn2, Strict.streamSlice]

/-- Claim C2: for a blob of `S` bytes and a parsed `Range` header
`bytes=start-end` with `0 ≤ start ≤ end ≤ S-1`, the route answers 206
with `Content-Range: bytes start-end/S`, `Content-Length: end-start+1`,
and a body of exactly `end-start+1` bytes (the requested slice); with no
`Range` header it answers 200 with `Content-Length: S` and the full `S`
bytes. -/
theorem video_range_correct
    (content : List Nat) (r : String) (sStr eStr : List Char) (start endB : Nat)
    (hp : splitOnChar '-' (replaceFirstChars "bytes=".toList r.toList) = [sStr, eStr])
    (hs : parseIntChars sStr = .ofInt start)
    (he : parseIntChars eStr = .ofInt endB)
    (hne : eStr.isEmpty = false)
    (hse : start ≤ endB) (hend : endB < content.length) :
    Strict.videoGet content (some r) =
      ⟨206, some (JQ.ofInt start, JQ.ofInt endB, content.length),
        .ofInt ((endB : Int) - (start : Int) + 1),
        (content.drop start).take (endB - start + 1)⟩ ∧
    ((content.drop start).take (endB - start + 1)).length = endB - start + 1 ∧
    Strict.videoGet content none = ⟨200, none, .ofInt content.length, content⟩ := by
  refine ⟨videoGet_parsed content r sStr eStr start endB hp hs he hne hse, ?_, rfl⟩
  rw [List.length_take, List.length_drop]
  omega

/-- Witness for C2: on a 4-byte blob, `Range: bytes=1-2` yields 206,
`Content-Range: bytes 1-2/4`, `Content-Length: 2` and the two middle
bytes; no range yields 200 with all 4 bytes. -/
theorem video_range_correct_witness :
    Strict.videoGet [10, 20, 30, 40] (some "bytes=1-2") =
      ⟨206, some (JQ.ofInt 1, JQ.ofInt 2, 4), .ofInt 2, [20, 30]⟩ ∧
    Strict.videoGet [10, 20, 30, 40] none = ⟨200, none, .ofInt 4, [10, 20, 30, 40]⟩ := by
  have h := video_range_correct [10, 20, 30, 40] "bytes=1-2" ['1'] ['2'] 1 2
    (by decide) (by decide) (by decide) (by decide) (by decide) (by decide)
  exact ⟨h.1.trans (by decide), h.2.2⟩

/-- Counterexample to C8 as stated: on a 3-byte blob the request
`bytes=0-10` is not clamped to `S-1 = 2` — the route answers 206 with
`Content-Range: bytes 0-10/3` and `Content-Length: 11` though the body
is only the 3 available bytes — and the malformed header `bytes=xyz` is
not treated as "no range" (200): stream construction throws and the
route answers 500. -/
theorem video_range_no_clamp_cex :
    Strict.videoGet [10, 20, 30] (some "bytes=0-10") =
      ⟨206, some (JQ.ofInt 0, JQ.ofInt 10, 3), .ofInt 11, [10, 20, 30]⟩ ∧
    ¬((10 : Int) ≤ 3 - 1) ∧
    (Strict.videoGet [10, 20, 30] (some "bytes=xyz")).status = 500 ∧ 500 ≠ 200 := by
  decide

/-- Claim C8 as amended: the route performs no range validation at all —
whenever the header parses to integers `0 ≤ start ≤ end` the response is
206 with `start` and `end` used verbatim in `Content-Range` and
`Content-Length: end-start+1`, with no clamping of `end` to the blob
size (the body is simply truncated at end of file); a malformed header
is answered 500 by the thrown stream error, never served as a 200 full
response. -/
theorem video_range_verbatim
    (content : List Nat) (r : String) (sStr eStr : List Char) (start endB : Nat)
    (hp : splitOnChar '-' (replaceFirstChars "bytes=".toList r.toList) = [sStr, eStr])
    (hs : parseIntChars sStr = .ofInt start)
    (he : parseIntChars eStr = .ofInt endB)
    (hne : eStr.isEmpty = false)
    (hse : start ≤ endB) :
    Strict.videoGet content (some r) =
      ⟨206, some (JQ.ofInt start, JQ.ofInt endB, content.length),
        .ofInt ((endB : Int) - (start : Int) + 1),
        (content.drop start).take (endB - start + 1)⟩ :=
  videoGet_parsed content r sStr eStr start endB hp hs he hne hse

/-- Witness for C8 (amended): on a 3-byte blob, `bytes=1-7` is served
verbatim — 206, `Content-Range: bytes 1-7/3`, `Content-Length: 7`, body
truncated to the 2 available bytes. -/
theorem video_range_verbatim_witness :
    Strict.videoGet [10, 20, 30] (some "bytes=1-7") =
      ⟨206, some (JQ.ofInt 1, JQ.ofInt 7, 3), .ofInt 7, [20, 30]⟩ :=
  (video_range_verbatim [10, 20, 30] "bytes=1-7" ['1'] ['7'] 1 7
    (by decide) (by decide) (by decide) (by decide) (by decide)).trans (by decide)
